import Mathlib

/-!
Verification of the two command-line tools of this repository:

* `src/firebase/get-card-counts.py` — the Archive Counter: walks a directory,
  finds `.apkg` archives, extracts each one, queries the embedded database for
  a card count, and writes the successful records to a results document.
* `src/firebase/update-catalog-counts.py` — the Catalog Updater: reads the
  results document and the catalog document, matches catalog entries by a
  filename derived from their download URL, and overwrites `cardCount` and
  `size` where they disagree.

The development shallowly embeds both programs.  JSON values are modelled by
the inductive `Json`; Python dictionaries (catalog entries) by association
lists with first-key lookup and replace-in-place assignment, which matches
Python dict semantics for objects produced by `json.load` (unique keys, order
preserved, assignment replaces in place or appends);
Python string `split`, `endswith` and `urllib.parse.unquote` by structural
functions on character lists.  Fallible steps (KeyError on a missing dict key,
AttributeError on a non-string URL) are embedded with `Except`.
-/

/-- JSON values, the data manipulated by both tools via `json.load`/`json.dump`.
Numbers are modelled as integers: every numeric field the tools touch
(`cardCount`, `size`, `count`) is an integer. -/
inductive Json where
  | null : Json
  | bool : Bool → Json
  | num : Int → Json
  | str : String → Json
  | arr : List Json → Json
  | obj : List (String × Json) → Json

mutual

/-- Structural equality of JSON values (Python `==` on the values the tools
compare; the tools only ever compare numbers). -/
def Json.beq : Json → Json → Bool
  | .num a, .num b => a == b
  | .str a, .str b => a == b
  | .bool a, .bool b => a == b
  | .null, .null => true
  | .arr xs, .arr ys => Json.beqArr xs ys
  | .obj fs, .obj gs => Json.beqObj fs gs
  | _, _ => false

/-- Elementwise equality of JSON arrays. -/
def Json.beqArr : List Json → List Json → Bool
  | x :: xs, y :: ys => Json.beq x y && Json.beqArr xs ys
  | [], ys => ys.isEmpty
  | _ :: _, [] => false

/-- Elementwise equality of JSON objects: same keys in the same order with
equal values. -/
def Json.beqObj : List (String × Json) → List (String × Json) → Bool
  | p :: ps, q :: qs => p.1 == q.1 && Json.beq p.2 q.2 && Json.beqObj ps qs
  | [], qs => qs.isEmpty
  | _ :: _, [] => false

end

/-- Python `str.split(sep)` for a single-character separator, on character
lists: accumulates the current field and starts a new one at each separator.
Like Python, it always returns at least one (possibly empty) field. -/
def splitCharsAux (sep : Char) : List Char → List Char → List (List Char)
  | [], acc => [acc.reverse]
  | c :: cs, acc =>
    if c == sep then acc.reverse :: splitCharsAux sep cs []
    else splitCharsAux sep cs (c :: acc)

/-- Python `s.split(sep)` for a single-character separator (the tools only
split on `/` and `?`). -/
def pySplit (s : String) (sep : Char) : List String :=
  (splitCharsAux sep s.toList []).map List.asString

/-- Is `h` a hexadecimal digit, and if so what is its value?  Mirrors the
digit test of `urllib.parse.unquote`. -/
def hexDigitVal : Char → Option Nat
  | c =>
    if '0' ≤ c ∧ c ≤ '9' then some (c.toNat - '0'.toNat)
    else if 'a' ≤ c ∧ c ≤ 'f' then some (c.toNat - 'a'.toNat + 10)
    else if 'A' ≤ c ∧ c ≤ 'F' then some (c.toNat - 'A'.toNat + 10)
    else none

/-- Percent-decoding on character lists, the single-byte core of
`urllib.parse.unquote`: each `%XX` with two hex digits decodes to the code
point `XX`; a `%` not followed by two hex digits is kept literally.  This
coincides with `urllib.parse.unquote` on all ASCII percent-escapes (such as
`%20`), which is the only regime the catalog's URL-derived keys use;
multi-byte UTF-8 escape sequences, which `unquote` would assemble into a
single character, are out of scope of this model. -/
def unquoteChars : List Char → List Char
  | [] => []
  | '%' :: c₁ :: c₂ :: rest =>
    match hexDigitVal c₁, hexDigitVal c₂ with
    | some h, some l => Char.ofNat (16 * h + l) :: unquoteChars rest
    | _, _ => '%' :: unquoteChars (c₁ :: c₂ :: rest)
  | c :: rest => c :: unquoteChars rest

/-- Model of `urllib.parse.unquote` as used by the updater (see `unquoteChars`). -/
def unquote (s : String) : String :=
  (unquoteChars s.toList).asString

/-- The updater's derivation of the lookup key from a deck's download URL
(`update-catalog-counts.py`, body of the per-deck loop):
`url.split('/')[-1].split('?')[0]`, then `urllib.parse.unquote`, then a final
`.split('/')[-1]`.  Python `[-1]`/`[0]` on the result of `split` are total
because `split` never returns an empty list; the defaults of `getLastD` and
`headD` are never used. -/
def deriveFilename (url : String) : String :=
  let fn₁ := (pySplit url '/').getLastD ""
  let fn₂ := (pySplit fn₁ '?').headD ""
  let fn₃ := unquote fn₂
  (pySplit fn₃ '/').getLastD ""

/-- The key-derivation pipeline exactly as the specification phrases it
("taking the path segment after the final `/`, stripping any query string
(`?`-delimited suffix), percent-decoding the remainder, and re-taking the
final `/`-delimited segment"), for comparison with `deriveFilename`. -/
def specKeyDerivation (url : String) : String :=
  let afterLastSlash := (pySplit url '/').getLastD ""
  let withoutQuery := (pySplit afterLastSlash '?').headD ""
  let decoded := unquote withoutQuery
  (pySplit decoded '/').getLastD ""

example : deriveFilename "https://h.example.com/o/My%20Deck.apkg?alt=media" = "My Deck.apkg" := by
  decide

example : unquote "%%41" = "%A" := by decide

/-! ## Catalog Updater (`update-catalog-counts.py`) -/

/-- One record of the results document `actual-card-counts.json`, as written
by the counter and read by the updater: `{folder, file, path, count, size}`. -/
structure CountRec where
  folder : String
  file : String
  path : String
  count : Int
  size : Int
deriving DecidableEq

/-- The updater's lookup map
`{item['file']: {'count': item['count'], 'size': item['size']} for item in actual_counts}`:
keyed by bare file name, later duplicates overwriting earlier ones (hence the
first match in the reversed list). -/
def count_map (actual_counts : List CountRec) (name : String) : Option (Int × Int) :=
  (actual_counts.reverse.find? (fun r => r.file == name)).map (fun r => (r.count, r.size))

/-- A catalog entry: a Python dict as produced by `json.load`, modelled as an
association list of fields in document order. -/
abbrev Deck : Type := List (String × Json)

/-- Python `deck[k]` as a total lookup: `some` the stored value, `none` when
the key is absent (where the script would raise `KeyError`). -/
def dget? (d : Deck) (k : String) : Option Json :=
  ((List.find? (fun p => p.1 == k)) d).map Prod.snd

/-- Python `deck.get(k, v)`. -/
def dgetD (d : Deck) (k : String) (v : Json) : Json :=
  (dget? d k).getD v

/-- Python `deck[k] = v`: replace the value of an existing key in place,
otherwise append the new key at the end (dict insertion order). -/
def dset : Deck → String → Json → Deck
  | [], k, v => [(k, v)]
  | (k', v') :: rest, k, v =>
    if k' == k then (k, v) :: rest else (k', v') :: dset rest k v

/-- One iteration of the updater's per-deck loop.  Returns the (possibly
updated) deck together with whether it counted toward `updated`; `.error ()`
embeds the exceptions the script would raise: `KeyError` when
`deck['downloadUrl']` is absent, `AttributeError` when it is not a string
(`url.split`), and `KeyError` when `deck['name']` is absent on the change
path (the `print` of the change log). -/
def processDeck (cm : String → Option (Int × Int)) (deck : Deck) :
    Except Unit (Deck × Bool) :=
  match dget? deck "downloadUrl" with
  | none => .error ()
  | some (.str url) =>
    match cm (deriveFilename url) with
    | none => .ok (deck, false)
    | some (c, s) =>
      let old_count := dgetD deck "cardCount" (.num 0)
      let old_size := dgetD deck "size" (.num 0)
      if Json.beq old_count (.num c) && Json.beq old_size (.num s) then
        .ok (deck, false)
      else
        match dget? deck "name" with
        | none => .error ()
        | some _ => .ok (dset (dset deck "cardCount" (.num c)) "size" (.num s), true)
  | some _ => .error ()

/-- The updater's loop over `catalog['decks']`: processes entries in order,
returning the rewritten sequence and the `updated` total, or the first
exception. -/
def processDecks (cm : String → Option (Int × Int)) : List Deck → Except Unit (List Deck × Nat)
  | [] => .ok ([], 0)
  | d :: ds =>
    match processDeck cm d with
    | .error e => .error e
    | .ok (d', ch) =>
      match processDecks cm ds with
      | .error e => .error e
      | .ok (ds', n) => .ok (d' :: ds', n + (if ch then 1 else 0))

/-- The catalog document: the `decks` sequence plus the other top-level
fields, which `json.dump` passes through unchanged. -/
structure Catalog where
  decks : List Deck
  rest : List (String × Json)

/-- Observable outcome of one updater run.  The constructors record which
message the run prints and what it writes: `missingCounts` /
`missingCatalog` are the two "file not found" early returns, `crashed` is an
uncaught exception (no write), `noChanges` is the "All card counts are
already accurate!" path (no write), and `wrote` rewrites the catalog document
and reports the number of updated entries. -/
inductive UpdaterOutcome where
  | missingCounts
  | missingCatalog
  | crashed
  | noChanges (catalog : Catalog)
  | wrote (catalog : Catalog) (updated : Nat)

/-- The `main` of `update-catalog-counts.py`.  The two `Option` arguments model
the presence and parsed content of `actual-card-counts.json` and
`hosting/decks/decks.json` on disk. -/
def runUpdater : Option (List CountRec) → Option Catalog → UpdaterOutcome
  | none, _ => .missingCounts
  | some _, none => .missingCatalog
  | some actual_counts, some catalog =>
    match processDecks (count_map actual_counts) catalog.decks with
    | .error _ => .crashed
    | .ok (decks', updated) =>
      if 0 < updated then .wrote ⟨decks', catalog.rest⟩ updated
      else .noChanges catalog

/-- The document written to the catalog path by a run, if any: only the
`wrote` outcome executes `json.dump` on the catalog file. -/
def writtenDoc : UpdaterOutcome → Option Catalog
  | .wrote c _ => some c
  | _ => none

/-- The in-memory catalog at the end of a run that completed normally
(either wrote or reported "already accurate"). -/
def finalCatalog : UpdaterOutcome → Option Catalog
  | .wrote c _ => some c
  | .noChanges c => some c
  | _ => none

/-- The catalog document on disk after a run: the rewritten document if the
run wrote, otherwise the original, untouched file. -/
def catalogOnDisk (original : Catalog) (o : UpdaterOutcome) : Catalog :=
  (writtenDoc o).getD original

/-! ## Archive Counter (`get-card-counts.py`) -/

/-- Python string `<` (code-point lexicographic order), on character lists:
skip the common head, then compare the first differing code points; a proper
hd-to-hd run means the shorter string is smaller. -/
def charsLt : List Char → List Char → Bool
  | _, [] => false
  | [], _ :: _ => true
  | a :: as, b :: bs =>
    if a.toNat = b.toNat then charsLt as bs
    else decide (a.toNat < b.toNat)

/-- Python `a < b` on strings. -/
def pyLt (a b : String) : Bool := charsLt a.toList b.toList

/-- Insert `x` into `l` after every element strictly below it: the insertion
step of a stable comparison sort, used to model Python `sorted`. -/
def insertBy (lt : α → α → Bool) (x : α) : List α → List α
  | [] => [x]
  | y :: ys => if lt y x then y :: insertBy lt x ys else x :: y :: ys

/-- A stable comparison sort modelling Python `sorted` (any comparison sort
gives the same output here: the sort keys, full file paths, are distinct on a
real file system). -/
def sortBy (lt : α → α → Bool) : List α → List α
  | [] => []
  | x :: xs => insertBy lt x (sortBy lt xs)

/-- Python `s.endswith(suf)` (case-sensitive). -/
def pyEndsWith (s suf : String) : Bool :=
  suf.toList.isSuffixOf s.toList

/-- The extracted contents of one `.apkg` archive, as `get_card_count` can
observe them.  `extractOk` is whether `ZipFile(...).extractall` succeeds;
`contents` maps each extracted top-level file name to the result of
`SELECT COUNT(*) FROM cards` against it: `some n` if the query returns `n`,
`none` if opening or querying it raises (e.g. it is not an SQLite database or
has no `cards` table).  `sqlite3.connect` itself never fails on an existing
path, so the per-file query result is the only observable. -/
structure Archive where
  extractOk : Bool
  contents : List (String × Option Nat)
deriving DecidableEq

/-- Model of `os.path.exists` for a name inside the extraction directory. -/
def hasFile (a : Archive) (nm : String) : Bool :=
  a.contents.any (fun p => p.1 == nm)

/-- The count query against one extracted file: `some n` when it succeeds. -/
def queryCards (a : Archive) (nm : String) : Option Nat :=
  (a.contents.find? (fun p => p.1 == nm)).bind Prod.snd

/-- The `for db_name in ['collection.anki21', 'collection.anki2']` loop with
its `break`: the first of the two known database names that exists. -/
def findDbName (a : Archive) : Option String :=
  ["collection.anki21", "collection.anki2"].find? (fun nm => hasFile a nm)

/-- The `get_card_count` function of `get-card-counts.py`: extract the archive, locate the
embedded database, query the count; `none` on any failure (the enclosing
`try`/`except` turns every exception into `return None`, and a missing
database is `return None` directly). -/
def get_card_count (a : Archive) : Option Nat :=
  if a.extractOk then
    match findDbName a with
    | none => none
    | some nm => queryCards a nm
  else none

/-- One file as delivered by the `os.walk` loop of the counter's `main`:
its base name, path relative to the scanned root, immediate parent directory
name, byte size, and archive contents.  Discovery filters on the base name;
the full path used as the sort key is the scanned root joined with
`relPath`, so sorting by `relPath` gives the same order. -/
structure FileEntry where
  name : String
  relPath : String
  folder : String
  size : Nat
  archive : Archive
deriving DecidableEq

/-- One element of the results array: `{folder, file, path, count, size}`. -/
structure ArchiveRecord where
  folder : String
  file : String
  path : String
  count : Nat
  size : Nat
deriving DecidableEq

/-- The discovery filter of `main`: files whose base name ends in `.apkg`. -/
def discover (files : List FileEntry) : List FileEntry :=
  files.filter (fun f => pyEndsWith f.name ".apkg")

/-- Model of `sorted(apkg_files)`: processing order of the per-archive loop. -/
def sortByPath (files : List FileEntry) : List FileEntry :=
  sortBy (fun f g => pyLt f.relPath g.relPath) files

/-- The record `main` appends for a successfully read archive. -/
def mkRecord (f : FileEntry) (c : Nat) : ArchiveRecord :=
  ⟨f.folder, f.name, f.relPath, c, f.size⟩

/-- The `results` list at the end of the per-archive loop: one record per
archive whose `get_card_count` returned a value, in sorted processing
order. -/
def scanResults (files : List FileEntry) : List ArchiveRecord :=
  (sortByPath (discover files)).filterMap
    (fun f => (get_card_count f.archive).map (mkRecord f))

/-- Observable outcome of one counter run: the process exit code and the
results document written to `actual-card-counts.json`, if any. -/
structure CounterResult where
  exitCode : Nat
  resultsFile : Option (List ArchiveRecord)
deriving DecidableEq

/-- The `main` of `get-card-counts.py`.  `argPresent` is `len(sys.argv) >= 2`,
`dirExists` is `os.path.exists` of the argument, `files` the tree the walk
visits.  The three `sys.exit(1)` guards run in source order before any
processing; otherwise the run processes every archive and finishes with exit
code 0 after writing the results file. -/
def counterMain (argPresent dirExists : Bool) (files : List FileEntry) : CounterResult :=
  if !argPresent then ⟨1, none⟩
  else if !dirExists then ⟨1, none⟩
  else if (discover files).isEmpty then ⟨1, none⟩
  else ⟨0, some (scanResults files)⟩

/-! ## Concrete fixtures -/

/-- Results document of the spec's French-deck scenario. -/
def frCounts : List CountRec :=
  [⟨"French", "French.apkg", "French/French.apkg", 1200, 5242880⟩]

/-- Catalog entry of the French-deck scenario, before the run. -/
def frDeck : Deck :=
  [("name", .str "French 5000"),
   ("downloadUrl", .str "https://h.example.com/o/decks/French.apkg?token=x"),
   ("cardCount", .num 1000),
   ("size", .num 4000000)]

/-- Catalog entry of the French-deck scenario, after the run. -/
def frDeckAfter : Deck :=
  [("name", .str "French 5000"),
   ("downloadUrl", .str "https://h.example.com/o/decks/French.apkg?token=x"),
   ("cardCount", .num 1200),
   ("size", .num 5242880)]

/-- Catalog of the French-deck scenario. -/
def frCat : Catalog := ⟨[frDeck], []⟩

/-- A catalog entry with no `downloadUrl` key: `deck['downloadUrl']` raises
`KeyError`, so a run over it crashes. -/
def noUrlDeck : Deck := [("name", .str "X")]

/-- A catalog whose single entry has no `downloadUrl`. -/
def noUrlCat : Catalog := ⟨[noUrlDeck], []⟩

/-- A catalog entry that matches `frCounts` but lacks the `cardCount` and
`size` keys. -/
def bareDeck : Deck :=
  [("name", .str "French 5000"),
   ("downloadUrl", .str "https://h.example.com/o/decks/French.apkg?token=x")]

/-- A catalog entry that matches `frCounts`, stores a `cardCount`, but lacks
the `size` key. -/
def halfDeck : Deck :=
  [("name", .str "French 5000"),
   ("downloadUrl", .str "https://h.example.com/o/decks/French.apkg?token=x"),
   ("cardCount", .num 1000)]

/-- An archive containing a current-format database with 7 cards. -/
def goodArchive : Archive := ⟨true, [("collection.anki21", some 7), ("media", none)]⟩

/-- An archive containing neither known database name. -/
def noDbArchive : Archive := ⟨true, [("media", none)]⟩

/-- An archive whose legacy-format database has an empty `cards` table. -/
def emptyArchive : Archive := ⟨true, [("collection.anki2", some 0)]⟩

/-- A readable archive file entry. -/
def goodFile : FileEntry := ⟨"Good.apkg", "a/Good.apkg", "a", 100, goodArchive⟩

/-- A file entry whose archive holds no database. -/
def badFile : FileEntry := ⟨"Bad.apkg", "b/Bad.apkg", "b", 50, noDbArchive⟩

/-- A file entry whose archive has an empty `cards` table. -/
def emptyFile : FileEntry := ⟨"Empty.apkg", "e/Empty.apkg", "e", 30, emptyArchive⟩

/-- A two-file tree: one readable archive, one archive with no database. -/
def mixedFiles : List FileEntry := [goodFile, badFile]

/-- A tree containing an archive with an empty `cards` table. -/
def emptyCardFiles : List FileEntry := [emptyFile]

example : runUpdater (some frCounts) (some frCat) = .wrote ⟨[frDeckAfter], []⟩ 1 := by rfl

example : runUpdater (some frCounts) (some noUrlCat) = .crashed := by rfl

example : counterMain true true mixedFiles =
    ⟨0, some [⟨"a", "Good.apkg", "a/Good.apkg", 7, 100⟩]⟩ := by rfl

/-- The per-entry frame relation the updater guarantees between an entry
before and after a run: every field other than `cardCount` and `size` is
unchanged, and an entry whose derived filename has no record in the results
document is entirely unchanged. -/
def entryFrame (cm : String → Option (Int × Int)) (d d' : Deck) : Prop :=
  (∀ k, k ≠ "cardCount" → k ≠ "size" → dget? d' k = dget? d k) ∧
  (∀ url, dget? d "downloadUrl" = some (.str url) →
    cm (deriveFilename url) = none → d' = d)

/-! ## Supporting lemmas -/

theorem Json.beq_num_iff (x : Json) (n : Int) : Json.beq x (.num n) = true ↔ x = .num n := by
  cases x <;> simp [Json.beq]

theorem Json.beq_num_self (n : Int) : Json.beq (.num n) (.num n) = true := by
  simp [Json.beq]

theorem dget?_dset_self (d : Deck) (k : String) (v : Json) :
    dget? (dset d k v) k = some v := by
  induction d with
  | nil => simp [dset, dget?]
  | cons p rest ih =>
    obtain ⟨k', v'⟩ := p
    by_cases h : k' = k
    · simp [dset, h, dget?]
    · simpa [dset, h, dget?] using ih

theorem dget?_dset_ne (d : Deck) {k k' : String} (h : k ≠ k') (v : Json) :
    dget? (dset d k' v) k = dget? d k := by
  induction d with
  | nil => simp [dset, dget?, Ne.symm h]
  | cons p rest ih =>
    obtain ⟨k₀, v₀⟩ := p
    by_cases h₀ : k₀ = k'
    · subst h₀; simp [dset, dget?, Ne.symm h]
    · by_cases h₁ : k₀ = k
      · subst h₁; simp [dset, h₀, dget?]
      · simpa [dset, h₀, dget?, h₁] using ih

/-- Inversion of one iteration of the per-deck loop: every successful
iteration took one of the three non-raising paths. -/
theorem processDeck_ok {cm : String → Option (Int × Int)} {d d' : Deck} {ch : Bool}
    (h : processDeck cm d = .ok (d', ch)) :
    ∃ url, dget? d "downloadUrl" = some (.str url) ∧
      ((cm (deriveFilename url) = none ∧ d' = d ∧ ch = false) ∨
       ∃ c s, cm (deriveFilename url) = some (c, s) ∧
         ((Json.beq (dgetD d "cardCount" (.num 0)) (.num c) &&
            Json.beq (dgetD d "size" (.num 0)) (.num s)) = true ∧ d' = d ∧ ch = false ∨
          (Json.beq (dgetD d "cardCount" (.num 0)) (.num c) &&
            Json.beq (dgetD d "size" (.num 0)) (.num s)) = false ∧
            (∃ nm, dget? d "name" = some nm) ∧
            d' = dset (dset d "cardCount" (.num c)) "size" (.num s) ∧ ch = true)) := by
  unfold processDeck at h
  split at h
  · simp at h
  · rename_i url hu
    refine ⟨url, hu, ?_⟩
    split at h
    · rename_i hc
      simp only [Except.ok.injEq, Prod.mk.injEq] at h
      exact Or.inl ⟨hc, h.1.symm, h.2.symm⟩
    · rename_i c s hc
      refine Or.inr ⟨c, s, hc, ?_⟩
      split at h
      · rename_i hn
        dsimp only at h
        split at h
        · rename_i hb
          simp only [Except.ok.injEq, Prod.mk.injEq] at h
          exact Or.inl ⟨hb, h.1.symm, h.2.symm⟩
        · simp at h
      · rename_i nm hn
        dsimp only at h
        split at h
        · rename_i hb
          simp only [Except.ok.injEq, Prod.mk.injEq] at h
          exact Or.inl ⟨hb, h.1.symm, h.2.symm⟩
        · rename_i hb
          have hb' : (Json.beq (dgetD d "cardCount" (.num 0)) (.num c) &&
              Json.beq (dgetD d "size" (.num 0)) (.num s)) = false := by
            simpa using hb
          simp only [Except.ok.injEq, Prod.mk.injEq] at h
          exact Or.inr ⟨hb', ⟨nm, hn⟩, h.1.symm, h.2.symm⟩
  · simp at h

theorem processDeck_eval_nomatch {cm : String → Option (Int × Int)} {d : Deck} {url : String}
    (hu : dget? d "downloadUrl" = some (.str url))
    (hc : cm (deriveFilename url) = none) :
    processDeck cm d = .ok (d, false) := by
  simp [processDeck, hu, hc]

theorem processDeck_eval_same {cm : String → Option (Int × Int)} {d : Deck} {url : String}
    {c s : Int} (hu : dget? d "downloadUrl" = some (.str url))
    (hc : cm (deriveFilename url) = some (c, s))
    (hb : (Json.beq (dgetD d "cardCount" (.num 0)) (.num c) &&
      Json.beq (dgetD d "size" (.num 0)) (.num s)) = true) :
    processDeck cm d = .ok (d, false) := by
  simp [processDeck, hu, hc, hb]

theorem processDeck_frame {cm : String → Option (Int × Int)} {d d' : Deck} {ch : Bool}
    (h : processDeck cm d = .ok (d', ch)) :
    ∀ k, k ≠ "cardCount" → k ≠ "size" → dget? d' k = dget? d k := by
  obtain ⟨url, hu, hcase⟩ := processDeck_ok h
  rcases hcase with ⟨_, rfl, _⟩ | ⟨c, s, hc, hcase⟩
  · intro k _ _; rfl
  rcases hcase with ⟨_, rfl, _⟩ | ⟨_, _, rfl, _⟩
  · intro k _ _; rfl
  · intro k h₁ h₂
    rw [dget?_dset_ne _ h₂, dget?_dset_ne _ h₁]

theorem processDeck_unmatched {cm : String → Option (Int × Int)} {d d' : Deck} {ch : Bool}
    {url : String} (h : processDeck cm d = .ok (d', ch))
    (hu : dget? d "downloadUrl" = some (.str url))
    (hnone : cm (deriveFilename url) = none) : d' = d := by
  obtain ⟨url₀, hu₀, hcase⟩ := processDeck_ok h
  rw [hu] at hu₀
  have : url₀ = url := by simpa using hu₀.symm
  subst this
  rcases hcase with ⟨_, rfl, _⟩ | ⟨c, s, hc, _⟩
  · rfl
  · rw [hnone] at hc; cases hc

theorem processDeck_eval_changed {cm : String → Option (Int × Int)} {d : Deck} {url : String}
    {c s : Int} {nm : Json} (hu : dget? d "downloadUrl" = some (.str url))
    (hc : cm (deriveFilename url) = some (c, s))
    (hb : (Json.beq (dgetD d "cardCount" (.num 0)) (.num c) &&
      Json.beq (dgetD d "size" (.num 0)) (.num s)) = false)
    (hn : dget? d "name" = some nm) :
    processDeck cm d = .ok (dset (dset d "cardCount" (.num c)) "size" (.num s), true) := by
  simp [processDeck, hu, hc, hb, hn]

theorem processDeck_idem {cm : String → Option (Int × Int)} {d d' : Deck} {ch : Bool}
    (h : processDeck cm d = .ok (d', ch)) :
    processDeck cm d' = .ok (d', false) := by
  obtain ⟨url, hu, hcase⟩ := processDeck_ok h
  rcases hcase with ⟨hc, rfl, _⟩ | ⟨c, s, hc, hcase⟩
  · exact processDeck_eval_nomatch hu hc
  rcases hcase with ⟨hb, rfl, _⟩ | ⟨hb, ⟨nm, hn⟩, rfl, _⟩
  · exact processDeck_eval_same hu hc hb
  · have hu' : dget? (dset (dset d "cardCount" (.num c)) "size" (.num s)) "downloadUrl" =
        some (.str url) := by
      rw [dget?_dset_ne _ (by decide), dget?_dset_ne _ (by decide)]
      exact hu
    have h₁ : dget? (dset (dset d "cardCount" (.num c)) "size" (.num s)) "cardCount" =
        some (.num c) := by
      rw [dget?_dset_ne _ (by decide)]
      exact dget?_dset_self ..
    have h₂ : dget? (dset (dset d "cardCount" (.num c)) "size" (.num s)) "size" =
        some (.num s) :=
      dget?_dset_self ..
    apply processDeck_eval_same hu' hc
    simp [dgetD, h₁, h₂, Json.beq_num_self]

/-- Inversion of the per-deck loop over a nonempty deck sequence. -/
theorem processDecks_cons_ok {cm : String → Option (Int × Int)} {d : Deck} {ds : List Deck}
    {ds' : List Deck} {n : Nat} (h : processDecks cm (d :: ds) = .ok (ds', n)) :
    ∃ d' ch rest m, processDeck cm d = .ok (d', ch) ∧ processDecks cm ds = .ok (rest, m) ∧
      ds' = d' :: rest ∧ n = m + (if ch then 1 else 0) := by
  unfold processDecks at h
  cases hd : processDeck cm d with
  | error e => rw [hd] at h; simp at h
  | ok p =>
    obtain ⟨d', ch⟩ := p
    rw [hd] at h
    cases hrest : processDecks cm ds with
    | error e => rw [hrest] at h; simp at h
    | ok q =>
      obtain ⟨rest, m⟩ := q
      rw [hrest] at h
      simp only [Except.ok.injEq, Prod.mk.injEq] at h
      exact ⟨d', ch, rest, m, rfl, rfl, h.1.symm, h.2.symm⟩

theorem processDecks_frame {cm : String → Option (Int × Int)} {ds ds' : List Deck} {n : Nat}
    (h : processDecks cm ds = .ok (ds', n)) :
    List.Forall₂ (entryFrame cm) ds ds' := by
  induction ds generalizing ds' n with
  | nil =>
    unfold processDecks at h
    simp only [Except.ok.injEq, Prod.mk.injEq] at h
    rw [← h.1]
    exact .nil
  | cons d ds ih =>
    obtain ⟨d', ch, rest, m, hd, hrest, rfl, rfl⟩ := processDecks_cons_ok h
    exact List.Forall₂.cons
      ⟨processDeck_frame hd, fun url hu hc => processDeck_unmatched hd hu hc⟩
      (ih hrest)

theorem processDecks_idem {cm : String → Option (Int × Int)} {ds ds' : List Deck} {n : Nat}
    (h : processDecks cm ds = .ok (ds', n)) :
    processDecks cm ds' = .ok (ds', 0) := by
  induction ds generalizing ds' n with
  | nil =>
    unfold processDecks at h
    simp only [Except.ok.injEq, Prod.mk.injEq] at h
    rw [← h.1]
    rfl
  | cons d ds ih =>
    obtain ⟨d', ch, rest, m, hd, hrest, rfl, rfl⟩ := processDecks_cons_ok h
    have hd' := processDeck_idem hd
    have hrest' := ih hrest
    unfold processDecks
    rw [hd', hrest']
    rfl

/-- The per-entry frame relation is reflexive. -/
theorem entryFrame_refl (cm : String → Option (Int × Int)) (d : Deck) : entryFrame cm d d :=
  ⟨fun _ _ _ => rfl, fun _ _ _ => rfl⟩

theorem insertBy_perm (lt : α → α → Bool) (x : α) (l : List α) :
    (insertBy lt x l).Perm (x :: l) := by
  induction l with
  | nil => exact List.Perm.refl _
  | cons y ys ih =>
    unfold insertBy
    by_cases h : lt y x
    · simp only [h, if_true]
      exact (ih.cons y).trans (List.Perm.swap x y ys)
    · simp only [h, if_false]
      exact List.Perm.refl _

theorem sortBy_perm (lt : α → α → Bool) (l : List α) : (sortBy lt l).Perm l := by
  induction l with
  | nil => exact List.Perm.refl _
  | cons x xs ih => exact (insertBy_perm lt x (sortBy lt xs)).trans (ih.cons x)

theorem filterMap_length_countP (g : α → Option β) (l : List α) :
    (l.filterMap g).length = l.countP (fun a => (g a).isSome) := by
  induction l with
  | nil => rfl
  | cons x xs ih => cases h : g x <;> simp [List.filterMap_cons, h, List.countP_cons, ih]

theorem countP_lt_length_of_mem {l : List α} {x : α} {p : α → Bool}
    (hx : x ∈ l) (hp : p x = false) : l.countP p < l.length := by
  induction l with
  | nil => cases hx
  | cons y ys ih =>
    rw [List.countP_cons, List.length_cons]
    rcases List.mem_cons.mp hx with rfl | hmem
    · rw [hp]
      simp only [Bool.false_eq_true, if_false]
      have := List.countP_le_length (l := ys) (p := p)
      omega
    · have h₁ := ih hmem
      have h₂ : (if p y then 1 else 0) ≤ 1 := by split <;> omega
      omega

/-- The length of the results list is the number of archives whose count
extraction returned a value. -/
theorem scanResults_length (files : List FileEntry) :
    (scanResults files).length =
      (discover files).countP (fun f => (get_card_count f.archive).isSome) := by
  unfold scanResults sortByPath
  rw [filterMap_length_countP]
  have hfun : (fun f => ((get_card_count f.archive).map (mkRecord f)).isSome) =
      fun f : FileEntry => (get_card_count f.archive).isSome := by
    funext f
    cases get_card_count f.archive <;> rfl
  rw [hfun]
  exact (sortBy_perm _ (discover files)).countP_eq _

/-- Every archive whose count extraction succeeds contributes its record to
the results list. -/
theorem mem_scanResults {files : List FileEntry} {f : FileEntry} {c : Nat}
    (hf : f ∈ discover files) (hc : get_card_count f.archive = some c) :
    mkRecord f c ∈ scanResults files := by
  unfold scanResults sortByPath
  refine List.mem_filterMap.mpr ⟨f, ?_, ?_⟩
  · exact ((sortBy_perm _ (discover files)).mem_iff).mpr hf
  · rw [hc]; rfl

/-- Evaluation of the counter's `main` when all three guards pass. -/
theorem counterMain_run {files : List FileEntry} (h : discover files ≠ []) :
    counterMain true true files = ⟨0, some (scanResults files)⟩ := by
  have he : (discover files).isEmpty = false := by
    cases hd : discover files with
    | nil => exact absurd hd h
    | cons a l => rfl
  simp [counterMain, he]

/-! ## Claim theorems -/

/-- C1: after an updater run over any results document and catalog document,
the catalog on disk has the same number of `decks` entries in the same order
(entry `i` corresponds to entry `i`), every field of every entry other than
`cardCount` and `size` is unchanged as a JSON value, entries whose derived
filename matches no results record are entirely unchanged, and the catalog's
other top-level fields are unchanged. -/
theorem upd_frame_after_run (counts : List CountRec) (cat : Catalog) :
    (catalogOnDisk cat (runUpdater (some counts) (some cat))).decks.length
        = cat.decks.length ∧
    (catalogOnDisk cat (runUpdater (some counts) (some cat))).rest = cat.rest ∧
    List.Forall₂ (entryFrame (count_map counts)) cat.decks
      (catalogOnDisk cat (runUpdater (some counts) (some cat))).decks := by
  cases hp : processDecks (count_map counts) cat.decks with
  | error e =>
    have hr : runUpdater (some counts) (some cat) = .crashed := by
      simp [runUpdater, hp]
    rw [hr]
    exact ⟨rfl, rfl, List.forall₂_same.mpr fun d _ => entryFrame_refl _ d⟩
  | ok p =>
    obtain ⟨ds', n⟩ := p
    by_cases hn : 0 < n
    · have hr : runUpdater (some counts) (some cat) = .wrote ⟨ds', cat.rest⟩ n := by
        simp [runUpdater, hp, hn]
      rw [hr]
      have hf := processDecks_frame hp
      exact ⟨hf.length_eq.symm, rfl, hf⟩
    · have hr : runUpdater (some counts) (some cat) = .noChanges cat := by
        simp [runUpdater, hp, hn]
      rw [hr]
      exact ⟨rfl, rfl, List.forall₂_same.mpr fun d _ => entryFrame_refl _ d⟩

/-- C1 witness: the frame property instantiated on the French-deck run. -/
theorem upd_frame_after_run_witness :
    List.Forall₂ (entryFrame (count_map frCounts)) frCat.decks
      (catalogOnDisk frCat (runUpdater (some frCounts) (some frCat))).decks :=
  (upd_frame_after_run frCounts frCat).2.2

/-- C5: the lookup key is derived exactly by the four-step pipeline the
specification describes (take the segment after the final `/`, strip the
`?`-suffix, percent-decode, re-take the final `/`-segment), and the two URL
shapes `.../My%20Deck.apkg?alt=media` and `.../My Deck.apkg` both resolve to
the key `My Deck.apkg`. -/
theorem filename_derivation :
    (∀ url, deriveFilename url = specKeyDerivation url) ∧
    deriveFilename "https://h.example.com/o/My%20Deck.apkg?alt=media" = "My Deck.apkg" ∧
    deriveFilename "https://h.example.com/o/My Deck.apkg" = "My Deck.apkg" ∧
    deriveFilename "https://h.example.com/o/My%20Deck.apkg?alt=media" =
      deriveFilename "https://h.example.com/o/My Deck.apkg" :=
  ⟨fun _ => rfl, by decide, by decide, by decide⟩

/-- C6: a missing results document or catalog document makes the updater
report that specific file (the two distinct outcomes) and write nothing; and
in every run the catalog document on disk is either untouched or is written
exactly once with the complete document computed from all per-entry
decisions. -/
theorem upd_missing_and_atomic :
    (∀ catOpt, runUpdater none catOpt = .missingCounts ∧
      writtenDoc (runUpdater none catOpt) = none) ∧
    (∀ counts, runUpdater (some counts) none = .missingCatalog ∧
      writtenDoc (runUpdater (some counts) none) = none) ∧
    (∀ counts cat,
      catalogOnDisk cat (runUpdater (some counts) (some cat)) = cat ∨
      ∃ n, 0 < n ∧
        runUpdater (some counts) (some cat)
          = .wrote (catalogOnDisk cat (runUpdater (some counts) (some cat))) n ∧
        processDecks (count_map counts) cat.decks
          = .ok ((catalogOnDisk cat (runUpdater (some counts) (some cat))).decks, n)) := by
  refine ⟨fun catOpt => ⟨rfl, rfl⟩, fun counts => ⟨rfl, rfl⟩, fun counts cat => ?_⟩
  cases hp : processDecks (count_map counts) cat.decks with
  | error e =>
    left
    have hr : runUpdater (some counts) (some cat) = .crashed := by
      simp [runUpdater, hp]
    rw [hr]; rfl
  | ok p =>
    obtain ⟨ds', n⟩ := p
    by_cases hn : 0 < n
    · right
      have hr : runUpdater (some counts) (some cat) = .wrote ⟨ds', cat.rest⟩ n := by
        simp [runUpdater, hp, hn]
      have hd : catalogOnDisk cat (runUpdater (some counts) (some cat)) = ⟨ds', cat.rest⟩ := by
        simp [hr, catalogOnDisk, writtenDoc]
      refine ⟨n, hn, ?_, ?_⟩
      · rw [hd, hr]
      · rw [hd]
    · left
      have hr : runUpdater (some counts) (some cat) = .noChanges cat := by
        simp [runUpdater, hp, hn]
      rw [hr]; rfl

/-- C2: a successfully processed entry counts toward the `updated` total
exactly when its derived file name has a record in the count mapping and the
stored card count or size (as compared by the script) differs from the
looked-up pair, in which case both fields are overwritten with the mapped
values; and the French-deck scenario updates the one entry to
`cardCount = 1200`, `size = 5242880` with a reported total of 1. -/
theorem upd_change_iff :
    (∀ (cm : String → Option (Int × Int)) (d d' : Deck) (ch : Bool),
      processDeck cm d = .ok (d', ch) →
      ((ch = true ↔ ∃ url c s, dget? d "downloadUrl" = some (.str url) ∧
          cm (deriveFilename url) = some (c, s) ∧
          ¬(dgetD d "cardCount" (.num 0) = .num c ∧ dgetD d "size" (.num 0) = .num s)) ∧
        (∀ url c s, ch = true → dget? d "downloadUrl" = some (.str url) →
          cm (deriveFilename url) = some (c, s) →
          dget? d' "cardCount" = some (.num c) ∧ dget? d' "size" = some (.num s)))) ∧
    runUpdater (some frCounts) (some frCat) = .wrote ⟨[frDeckAfter], []⟩ 1 ∧
    dget? frDeckAfter "cardCount" = some (.num 1200) ∧
    dget? frDeckAfter "size" = some (.num 5242880) := by
  refine ⟨?_, by rfl, by rfl, by rfl⟩
  intro cm d d' ch h
  obtain ⟨url, hu, hcase⟩ := processDeck_ok h
  constructor
  · constructor
    · intro hch
      subst hch
      rcases hcase with ⟨_, _, hfalse⟩ | ⟨c, s, hc, hcase⟩
      · cases hfalse
      rcases hcase with ⟨_, _, hfalse⟩ | ⟨hb, _, _, _⟩
      · cases hfalse
      · refine ⟨url, c, s, hu, hc, ?_⟩
        rintro ⟨h₁, h₂⟩
        rw [h₁, h₂] at hb
        simp [Json.beq_num_self] at hb
    · rintro ⟨url', c, s, hu', hc', hne⟩
      have hurl : url' = url := by
        rw [hu] at hu'
        simpa using hu'.symm
      subst hurl
      rcases hcase with ⟨hcnone, _, _⟩ | ⟨c₀, s₀, hc₀, hcase⟩
      · rw [hcnone] at hc'; cases hc'
      rw [hc₀] at hc'
      have hcs : c₀ = c ∧ s₀ = s := by simpa using hc'
      obtain ⟨rfl, rfl⟩ := hcs
      rcases hcase with ⟨hb, _, _⟩ | ⟨_, _, _, hch⟩
      · exfalso
        apply hne
        have hb' := Bool.and_eq_true_iff.mp hb
        exact ⟨(Json.beq_num_iff _ _).mp hb'.1, (Json.beq_num_iff _ _).mp hb'.2⟩
      · exact hch
  · intro url' c s hch hu' hc'
    subst hch
    have hurl : url' = url := by
      rw [hu] at hu'
      simpa using hu'.symm
    subst hurl
    rcases hcase with ⟨_, _, hfalse⟩ | ⟨c₀, s₀, hc₀, hcase⟩
    · cases hfalse
    rw [hc₀] at hc'
    have hcs : c₀ = c ∧ s₀ = s := by simpa using hc'
    obtain ⟨rfl, rfl⟩ := hcs
    rcases hcase with ⟨_, _, hfalse⟩ | ⟨_, _, rfl, _⟩
    · cases hfalse
    constructor
    · rw [dget?_dset_ne _ (by decide)]
      exact dget?_dset_self ..
    · exact dget?_dset_self ..

/-- C2 witness: the per-entry criterion instantiated on the French deck,
whose run changes it. -/
theorem upd_change_iff_witness :
    processDeck (count_map frCounts) frDeck = .ok (frDeckAfter, true) ∧
    dget? frDeckAfter "cardCount" = some (.num 1200) ∧
    dget? frDeckAfter "size" = some (.num 5242880) := by
  have h : processDeck (count_map frCounts) frDeck = .ok (frDeckAfter, true) := by rfl
  exact ⟨h,
    (upd_change_iff.1 (count_map frCounts) frDeck frDeckAfter true h).2
      "https://h.example.com/o/decks/French.apkg?token=x" 1200 5242880 rfl (by rfl) (by rfl)⟩

/-- C3 counterexample: for the catalog whose single entry has no
`downloadUrl` key, the first run crashes (`KeyError`) and leaves the catalog
untouched, so the second run — same results document, catalog as left by the
first run — is the identical computation: it also crashes instead of finding
zero entries to update and reporting that all counts are already accurate.
The claim's universally quantified idempotence therefore fails as stated. -/
theorem upd_idem_cex :
    writtenDoc (runUpdater (some frCounts) (some noUrlCat)) = none ∧
    runUpdater (some frCounts) (some noUrlCat) = .crashed ∧
    runUpdater (some frCounts) (some noUrlCat) ≠ .noChanges noUrlCat := by
  refine ⟨rfl, rfl, fun h => ?_⟩
  rw [show runUpdater (some frCounts) (some noUrlCat) = .crashed from rfl] at h
  cases h

/-- C3 (amended): if the first run completes normally — it reports either an
update or "already accurate", leaving catalog `c₁` — then a second run on the
unchanged results document and on `c₁` finds zero entries to update, reports
that all counts are already accurate, and performs no write. -/
theorem upd_idem (counts : List CountRec) (cat c₁ : Catalog)
    (h : finalCatalog (runUpdater (some counts) (some cat)) = some c₁) :
    runUpdater (some counts) (some c₁) = .noChanges c₁ ∧
    writtenDoc (runUpdater (some counts) (some c₁)) = none := by
  cases hp : processDecks (count_map counts) cat.decks with
  | error e =>
    have hr : runUpdater (some counts) (some cat) = .crashed := by
      simp [runUpdater, hp]
    rw [hr] at h
    cases h
  | ok p =>
    obtain ⟨ds', n⟩ := p
    by_cases hn : 0 < n
    · have hr : runUpdater (some counts) (some cat) = .wrote ⟨ds', cat.rest⟩ n := by
        simp [runUpdater, hp, hn]
      rw [hr] at h
      have hc₁ : (⟨ds', cat.rest⟩ : Catalog) = c₁ := by simpa [finalCatalog] using h
      have hi := processDecks_idem hp
      have hrun : runUpdater (some counts) (some c₁) = .noChanges c₁ := by
        rw [← hc₁]
        simp [runUpdater, hi]
      exact ⟨hrun, by rw [hrun]; rfl⟩
    · have hr : runUpdater (some counts) (some cat) = .noChanges cat := by
        simp [runUpdater, hp, hn]
      rw [hr] at h
      have hc₁ : cat = c₁ := by simpa [finalCatalog] using h
      subst hc₁
      exact ⟨hr, by rw [hr]; rfl⟩

/-- C3 witness: after the French-deck run writes the catalog, the immediate
second run reports it already accurate and writes nothing. -/
theorem upd_idem_witness :
    runUpdater (some frCounts) (some ⟨[frDeckAfter], []⟩) = .noChanges ⟨[frDeckAfter], []⟩ ∧
    writtenDoc (runUpdater (some frCounts) (some ⟨[frDeckAfter], []⟩)) = none :=
  upd_idem frCounts frCat ⟨[frDeckAfter], []⟩ (by rfl)

theorem Json.beq_num_num (a b : Int) : Json.beq (.num a) (.num b) = (a == b) := by
  simp [Json.beq]

/-- C4: whenever the counter proceeds past its guards (at least one archive
discovered), it exits by writing the results file, whose record count equals
the number of discovered archives whose count extraction returned a value and
is therefore at most the number of discovered archives.  (Each record's shape
is fixed by the `ArchiveRecord` structure: `{folder, file, path, count,
size}`.) -/
theorem counter_results_count (files : List FileEntry) (h : discover files ≠ []) :
    counterMain true true files = ⟨0, some (scanResults files)⟩ ∧
    (scanResults files).length =
      (discover files).countP (fun f => (get_card_count f.archive).isSome) ∧
    (scanResults files).length ≤ (discover files).length := by
  refine ⟨counterMain_run h, scanResults_length files, ?_⟩
  rw [scanResults_length]
  exact List.countP_le_length _

/-- C4 witness: the two-archive tree with one unreadable archive. -/
theorem counter_results_count_witness :
    counterMain true true mixedFiles = ⟨0, some (scanResults mixedFiles)⟩ ∧
    (scanResults mixedFiles).length =
      (discover mixedFiles).countP (fun f => (get_card_count f.archive).isSome) ∧
    (scanResults mixedFiles).length ≤ (discover mixedFiles).length :=
  counter_results_count mixedFiles (by decide)

/-- C7: the counter exits with code 1 exactly when the argument is absent,
the directory does not exist, or no `.apkg` file is discovered, and with code
0 otherwise (per-archive failures do not change it); every exit-1 path writes
no results file. -/
theorem counter_exit_codes (a d : Bool) (files : List FileEntry) :
    ((counterMain a d files).exitCode =
      if a = false ∨ d = false ∨ discover files = [] then 1 else 0) ∧
    ((counterMain a d files).exitCode = 1 →
      (counterMain a d files).resultsFile = none) := by
  cases a
  · simp [counterMain]
  · cases d
    · simp [counterMain]
    · by_cases hd : discover files = []
      · have he : (discover files).isEmpty = true := by rw [hd]; rfl
        simp [counterMain, he, hd]
      · have he : (discover files).isEmpty = false := by
          cases hx : discover files with
          | nil => exact absurd hx hd
          | cons y l => rfl
        simp [counterMain, he, hd]

/-- C7 witness: a directory with no archives exits 1 and writes nothing. -/
theorem counter_exit_codes_witness :
    (counterMain true true ([] : List FileEntry)).resultsFile = none :=
  (counter_exit_codes true true []).2 (by decide)

/-- C8: the embedded database is looked up under the two known names in
priority order (`collection.anki21` first, then `collection.anki2`); an
archive containing neither yields no count, and a run containing such an
archive still completes with exit code 0, excludes that archive from the
results (strictly fewer records than discovered archives), and still records
every archive whose extraction succeeded. -/
theorem counter_missing_db :
    (∀ a : Archive, hasFile a "collection.anki21" = false →
      hasFile a "collection.anki2" = false → get_card_count a = none) ∧
    (∀ a : Archive, hasFile a "collection.anki21" = true →
      findDbName a = some "collection.anki21") ∧
    (∀ a : Archive, hasFile a "collection.anki21" = false →
      hasFile a "collection.anki2" = true → findDbName a = some "collection.anki2") ∧
    (∀ (files : List FileEntry) (f : FileEntry), f ∈ discover files →
      get_card_count f.archive = none →
      counterMain true true files = ⟨0, some (scanResults files)⟩ ∧
      (scanResults files).length < (discover files).length ∧
      ∀ (g : FileEntry) (c : Nat), g ∈ discover files →
        get_card_count g.archive = some c → mkRecord g c ∈ scanResults files) := by
  refine ⟨?_, ?_, ?_, ?_⟩
  · intro a h₁ h₂
    have hfd : findDbName a = none := by
      simp [findDbName, List.find?, h₁, h₂]
    simp [get_card_count, hfd]
  · intro a h₁
    simp [findDbName, List.find?, h₁]
  · intro a h₁ h₂
    simp [findDbName, List.find?, h₁, h₂]
  · intro files f hf hnone
    have hne : discover files ≠ [] := by
      intro hx; rw [hx] at hf; cases hf
    refine ⟨counterMain_run hne, ?_, ?_⟩
    · rw [scanResults_length]
      exact countP_lt_length_of_mem hf (by simp [hnone])
    · intro g c hg hc
      exact mem_scanResults hg hc

/-- C8 witness: in the mixed tree, the database-less archive shrinks the
results below the discovered count. -/
theorem counter_missing_db_witness :
    (scanResults mixedFiles).length < (discover mixedFiles).length :=
  ((counter_missing_db.2.2.2 mixedFiles badFile (by decide) (by decide)).2).1

/-- C9: an archive whose located database answers the count query with 0 rows
yields `some 0` — a success, distinct from the failure value `none` — and its
record, with count 0, is included in the results document. -/
theorem counter_zero_count :
    (∀ (a : Archive) (nm : String), a.extractOk = true → findDbName a = some nm →
      queryCards a nm = some 0 → get_card_count a = some 0) ∧
    (∀ a : Archive, get_card_count a = some 0 → get_card_count a ≠ none) ∧
    (∀ (files : List FileEntry) (f : FileEntry), f ∈ discover files →
      get_card_count f.archive = some 0 →
      counterMain true true files = ⟨0, some (scanResults files)⟩ ∧
      mkRecord f 0 ∈ scanResults files) := by
  refine ⟨?_, ?_, ?_⟩
  · intro a nm h₁ h₂ h₃
    simp [get_card_count, h₁, h₂, h₃]
  · intro a h hn
    rw [h] at hn
    cases hn
  · intro files f hf h₀
    have hne : discover files ≠ [] := by
      intro hx; rw [hx] at hf; cases hf
    exact ⟨counterMain_run hne, mem_scanResults hf h₀⟩

/-- C9 witness: the empty-`cards`-table archive is recorded with count 0. -/
theorem counter_zero_count_witness :
    counterMain true true emptyCardFiles = ⟨0, some (scanResults emptyCardFiles)⟩ ∧
    mkRecord emptyFile 0 ∈ scanResults emptyCardFiles :=
  counter_zero_count.2.2 emptyCardFiles emptyFile (by decide) (by decide)

/-- C10: a matched entry that lacks the `cardCount` key, the `size` key, or
both, has each missing value treated as 0 (`deck.get(..., 0)`) when deciding
whether it differs from the looked-up pair; when it differs, both fields are
written — so any missing key is added with the looked-up value — and such
entries never make the run fail. -/
theorem upd_missing_fields (cm : String → Option (Int × Int)) (d : Deck) (url : String)
    (c s : Int) (nm : Json)
    (hu : dget? d "downloadUrl" = some (.str url))
    (hn : dget? d "name" = some nm)
    (hmiss : dget? d "cardCount" = none ∨ dget? d "size" = none)
    (hc : cm (deriveFilename url) = some (c, s)) :
    (dget? d "cardCount" = none → dgetD d "cardCount" (.num 0) = .num 0) ∧
    (dget? d "size" = none → dgetD d "size" (.num 0) = .num 0) ∧
    ∃ d' ch, processDeck cm d = .ok (d', ch) ∧
      (ch = true ↔ ¬(dgetD d "cardCount" (.num 0) = .num c ∧
        dgetD d "size" (.num 0) = .num s)) ∧
      (ch = true → dget? d' "cardCount" = some (.num c) ∧
        dget? d' "size" = some (.num s)) ∧
      (ch = false → d' = d) := by
  refine ⟨fun h => by simp [dgetD, h], fun h => by simp [dgetD, h], ?_⟩
  by_cases hb : (Json.beq (dgetD d "cardCount" (.num 0)) (.num c) &&
      Json.beq (dgetD d "size" (.num 0)) (.num s)) = true
  · refine ⟨d, false, processDeck_eval_same hu hc hb, ?_, ?_, fun _ => rfl⟩
    · have hb' := Bool.and_eq_true_iff.mp hb
      have h₁ := (Json.beq_num_iff _ _).mp hb'.1
      have h₂ := (Json.beq_num_iff _ _).mp hb'.2
      exact iff_of_false (by simp) (not_not_intro ⟨h₁, h₂⟩)
    · intro hx; cases hx
  · have hb' : (Json.beq (dgetD d "cardCount" (.num 0)) (.num c) &&
        Json.beq (dgetD d "size" (.num 0)) (.num s)) = false := by
      simpa using hb
    refine ⟨_, true, processDeck_eval_changed hu hc hb' hn, ?_, ?_, ?_⟩
    · refine iff_of_true rfl ?_
      rintro ⟨h₁, h₂⟩
      rw [h₁, h₂] at hb'
      simp [Json.beq_num_self] at hb'
    · intro _
      exact ⟨by rw [dget?_dset_ne _ (by decide)]; exact dget?_dset_self ..,
        dget?_dset_self ..⟩
    · intro hx; cases hx

/-- C10 witness: the French entry that stores `cardCount` but lacks `size`
is compared with size defaulted to 0, differs, and is updated. -/
theorem upd_missing_fields_witness :
    (dget? halfDeck "size" = none → dgetD halfDeck "size" (.num 0) = .num 0) ∧
    ∃ d' ch, processDeck (count_map frCounts) halfDeck = .ok (d', ch) ∧
      (ch = true ↔ ¬(dgetD halfDeck "cardCount" (.num 0) = .num 1200 ∧
        dgetD halfDeck "size" (.num 0) = .num 5242880)) ∧
      (ch = true → dget? d' "cardCount" = some (.num 1200) ∧
        dget? d' "size" = some (.num 5242880)) ∧
      (ch = false → d' = halfDeck) := by
  have h := upd_missing_fields (count_map frCounts) halfDeck
    "https://h.example.com/o/decks/French.apkg?token=x" 1200 5242880 (.str "French 5000")
    (by rfl) (by rfl) (Or.inr (by rfl)) (by rfl)
  exact ⟨h.2.1, h.2.2⟩
